import Mathlib

/-!
Verification development for the fastapi-radar capture/correlation/tracing core.

Each definition is a shallow embedding of a function of the repository,
translated from the Python sources in `fastapi_radar/` (tracing.py,
capture.py, middleware.py, tortoise_patch.py, models.py, radar.py).
Machine-level details are modelled as follows: Python dicts keyed by span id
become association lists in insertion order, `contextvars.ContextVar` becomes
an explicit carrier record, exceptions become `Except`, the Python call stack
of a recursive function becomes an explicit fuel parameter (so that genuine
non-termination of the source shows up as `none` for every fuel), and
timestamps and durations are integers measured in milliseconds.
-/

namespace FastapiRadar

/-- One entry of `TraceContext.spans` (tracing.py, `span_data` dict): the
fields relevant to relation computation and span finishing. -/
structure SpanData where
  spanId : String
  parentSpanId : Option String
  status : String
  deriving DecidableEq, Repr

/-- A `SpanRelation` row as created by `TracingManager._save_span_relations`:
(parent_span_id, child_span_id, depth). -/
abbrev Rel := String × String × Nat

/-- The inner `for sid, s in spans.items()` loop of `calculate_depth`
(tracing.py lines 152-158): scan the span dict in insertion order; for each
entry whose `parent_span_id` equals the current span id, emit the relation
`(span_id, sid, depth + 1)` followed by the recursively computed relations of
that child, then continue the scan.  `rec` is the recursive call at one more
stack frame; a `none` from it (out of fuel, i.e. the Python recursion would
not return) makes the whole loop `none`. -/
def relScan (rec : String → Nat → Option (List Rel)) (spanId : String)
    (depth : Nat) : List SpanData → Option (List Rel)
  | [] => some []
  | s :: rest =>
    if s.parentSpanId = some spanId then
      (rec s.spanId (depth + 1)).bind fun sub =>
        (relScan rec spanId depth rest).map fun tail =>
          (spanId, s.spanId, depth + 1) :: (sub ++ tail)
    else relScan rec spanId depth rest

/-- `calculate_depth(span_id, spans, depth)` of
`TracingManager._save_span_relations` (tracing.py lines 145-158), with the
Python call stack made explicit as fuel: `none` means the recursion did not
return within `fuel` nested calls.  The source returns `[]` when `span_id`
is not in the span dict, and otherwise scans the whole dict for children. -/
def calculateDepth (spans : List SpanData) : Nat → String → Nat → Option (List Rel)
  | 0, _, _ => none
  | fuel + 1, spanId, depth =>
    if (spans.find? fun s => s.spanId = spanId).isSome then
      relScan (calculateDepth spans fuel) spanId depth spans
    else some []

/-- `TracingManager._save_span_relations` (tracing.py lines 160-170): the
relation rows persisted for a trace context, namely `calculate_depth` started
at the root span with depth 0, or nothing when no root span was ever set. -/
def saveSpanRelations (rootSpanId : Option String) (spans : List SpanData)
    (fuel : Nat) : Option (List Rel) :=
  match rootSpanId with
  | none => some []
  | some r => calculateDepth spans fuel r 0

/-- The chain root → A → B → C from the spec's hierarchy example, as the
in-memory span set a `TraceContext` would hold. -/
def chainSpans : List SpanData :=
  [⟨"root", none, "ok"⟩, ⟨"A", some "root", "ok"⟩,
   ⟨"B", some "A", "ok"⟩, ⟨"C", some "B", "ok"⟩]

/-- A span set with a parent-pointer cycle reachable from the root span
"r": "a" is a child of "r" and "r" is a child of "a" (a malformed
`x-parent-span-id` can point the root at one of its own descendants). -/
def cycleSpans : List SpanData :=
  [⟨"r", some "a", "ok"⟩, ⟨"a", some "r", "ok"⟩]

/-- A rank function witnessing that the parent pointers of `chainSpans` are
acyclic: the distance from the root. -/
def chainRank : String → Nat := fun x =>
  if x = "A" then 1 else if x = "B" then 2 else if x = "C" then 3 else 0

/-- `calculate_depth` started at `root` never returns, whatever the size of
the call stack: the fuel-indexed embedding yields `none` for every fuel. -/
def DivergesFrom (spans : List SpanData) (root : String) : Prop :=
  ∀ fuel : Nat, calculateDepth spans fuel root 0 = none

/-! Python string primitives used by the sources, modelled on ASCII text
(SQL statements, header names): `str.upper`, `str.lower`, `str.strip`,
`str.startswith` and the `in` substring test. -/

/-- ASCII uppercase of one character (`str.upper` acts this way on the
ASCII SQL keywords the sources compare against). -/
def upperChar (c : Char) : Char :=
  if 'a' ≤ c ∧ c ≤ 'z' then Char.ofNat (c.toNat - 32) else c

/-- ASCII lowercase of one character. -/
def lowerChar (c : Char) : Char :=
  if 'A' ≤ c ∧ c ≤ 'Z' then Char.ofNat (c.toNat + 32) else c

/-- Python `s.upper()` on ASCII text. -/
def pyUpper (s : String) : String := String.mk (s.data.map upperChar)

/-- Python `s.lower()` on ASCII text. -/
def pyLower (s : String) : String := String.mk (s.data.map lowerChar)

/-- The whitespace characters removed by Python `str.strip()`. -/
def pySpace (c : Char) : Bool :=
  c = ' ' ∨ c = '\t' ∨ c = '\n' ∨ c = '\r' ∨ c = '\x0b' ∨ c = '\x0c'

/-- Python `s.strip()`: drop leading and trailing whitespace. -/
def pyStrip (s : String) : String :=
  String.mk (((s.data.dropWhile pySpace).reverse.dropWhile pySpace).reverse)

/-- Python `sub in s`: contiguous, case-sensitive substring test. -/
def pyContains (sub s : String) : Bool := decide (sub.data <:+: s.data)

/-- Python `s.startswith(pre)`. -/
def pyStartsWith (s pre : String) : Bool := pre.data.isPrefixOf s.data

/-- `span_id` is a key of the span dict (`spans.get(span_id)` is truthy). -/
def InSpanMap (spans : List SpanData) (x : String) : Prop :=
  (spans.find? fun s => s.spanId = x).isSome

/-- The span dict records `c` as an immediate child of `p`: some entry has
span id `c` and parent span id `p`. -/
def SpanEdge (spans : List SpanData) (p c : String) : Prop :=
  ∃ s ∈ spans, s.spanId = c ∧ s.parentSpanId = some p

/-- `y` is reachable from `root` in exactly `n` child steps, each step
leaving a span that is present in the dict (the traversal of
`calculate_depth` only descends from spans it found in the dict). -/
inductive ReachN (spans : List SpanData) (root : String) : Nat → String → Prop
  | refl : ReachN spans root 0 root
  | step {n : Nat} {y c : String} : ReachN spans root n y → InSpanMap spans y →
      SpanEdge spans y c → ReachN spans root (n + 1) c

/-! ### Trace context (tracing.py `TraceContext`) -/

/-- The mutable state of a `TraceContext` (tracing.py lines 14-23), at the
granularity used by the claims: identity, root/current span pointers and the
span dict in insertion order.  Timestamps, tags and logs of the spans are
not consulted by any claim and are not carried. -/
structure TraceCtxState where
  traceId : String
  rootSpanId : Option String
  currentSpanId : Option String
  spans : List SpanData
  deriving DecidableEq, Repr

/-- `TraceContext.create_span` (tracing.py lines 25-54): append a span entry
whose parent is the explicit `parentSpanId` if given, else the current span
pointer (`parent_span_id or self.current_span_id`); the first span created
becomes the root span.  `newSpanId` stands for the generated random id. -/
def createSpan (ctx : TraceCtxState) (newSpanId : String)
    (parentSpanId : Option String) : TraceCtxState :=
  let parent := match parentSpanId with
    | some p => some p
    | none => ctx.currentSpanId
  let ctx2 :=
    { ctx with spans := ctx.spans ++ [(⟨newSpanId, parent, "ok"⟩ : SpanData)] }
  match ctx2.rootSpanId with
  | none => { ctx2 with rootSpanId := some newSpanId }
  | some _ => ctx2

/-- `TraceContext.finish_span` (tracing.py lines 56-67): no-op when the id is
unknown, otherwise overwrite the span's status (end time, duration and tag
merge are not consulted by any claim). -/
def finishSpan (ctx : TraceCtxState) (spanId status : String) : TraceCtxState :=
  if ctx.spans.any fun s => s.spanId = spanId then
    { ctx with spans := ctx.spans.map fun s =>
        if s.spanId = spanId then { s with status := status } else s }
  else ctx

/-- The status of the span `sid` recorded in the trace context, if any. -/
def spanStatus (ctx : TraceCtxState) (sid : String) : Option String :=
  (ctx.spans.find? fun s => s.spanId = sid).map (·.status)

/-! ### Query capture listener (capture.py `QueryCapture`) -/

/-- The `context` dict built by `QueryCapture.before_query` (capture.py
lines 38-57): correlation id read from the ambient carrier, the
`time.time()` start timestamp (here in milliseconds), and the opened span id
when a trace context was active. -/
structure QueryCtx where
  requestId : Option String
  startTime : Int
  spanId : Option String
  deriving DecidableEq, Repr

/-- The exclusion test of `QueryCapture.before_query` (capture.py lines
26-36): the raw statement contains the case-sensitive substring `radar_`,
or the stripped upper-cased statement starts with CREATE, DROP or ALTER. -/
def beforeQuerySkips (query : String) : Bool :=
  pyContains "radar_" query ||
    (["CREATE", "DROP", "ALTER"].any fun cmd =>
      pyStartsWith (pyUpper (pyStrip query)) cmd)

/-- `QueryCapture.before_query` (capture.py lines 26-59): `none` (the
absence marker) for excluded statements, leaving the trace context alone;
otherwise the context dict, with a client-kind span opened through
`create_span` when a trace context is active.  Returns the listener context
and the trace context afterwards. -/
def beforeQuery (query : String) (requestId : Option String)
    (traceCtx : Option TraceCtxState) (newSpanId : String) (now : Int) :
    Option QueryCtx × Option TraceCtxState :=
  if beforeQuerySkips query then (none, traceCtx)
  else
    match traceCtx with
    | none => (some ⟨requestId, now, none⟩, none)
    | some ctx =>
      (some ⟨requestId, now, some newSpanId⟩, some (createSpan ctx newSpanId none))

/-- The span status chosen by `QueryCapture.after_query` (capture.py lines
88-94): `error` when the operation raised, else `slow` when the measured
duration reached the slow-query threshold, else `ok`. -/
def afterQueryStatus (excOccurred : Bool) (durationMs thresholdMs : Int) : String :=
  if excOccurred then "error"
  else if thresholdMs ≤ durationMs then "slow"
  else "ok"

/-- A `radar_queries` row as written by `QueryCapture.after_query`
(capture.py lines 104-111), restricted to the columns the claims consult. -/
structure CapturedQueryRow where
  requestId : Option String
  sql : String
  durationMs : Int
  deriving DecidableEq, Repr

/-- `QueryCapture.after_query` (capture.py lines 61-114): return immediately
on an absent context; otherwise compute the duration, finish the opened span
with `afterQueryStatus` when a trace context is active, and write the
CapturedQuery row best-effort (`dbOk` false models the swallowed persistence
failure of lines 112-114).  Returns the trace context afterwards and the row
written, if any. -/
def afterQuery (ctx : Option QueryCtx) (query : String) (excOccurred : Bool)
    (traceCtx : Option TraceCtxState) (now thresholdMs : Int) (dbOk : Bool) :
    Option TraceCtxState × Option CapturedQueryRow :=
  match ctx with
  | none => (traceCtx, none)
  | some c =>
    let durationMs := now - c.startTime
    let traceCtx2 := match traceCtx, c.spanId with
      | some t, some sid =>
        some (finishSpan t sid (afterQueryStatus excOccurred durationMs thresholdMs))
      | some t, none => some t
      | none, _ => none
    let row := if dbOk then some ⟨c.requestId, query, durationMs⟩ else none
    (traceCtx2, row)

/-! ### Interception hook registry (tortoise_patch.py) -/

/-- A query listener (the `QueryListener` protocol, tortoise_patch.py lines
5-7), with its own private state `σ`, opaque context type `γ`, and the
operation's error/result types `ε`/`ρ`.  Either hook may raise
(`Except.error`). -/
structure Listener (σ γ ε ρ : Type) where
  before : String → σ → Except Unit (σ × Option γ)
  after : Option γ → String → Option ρ → Option ε → σ → Except Unit σ

/-- One step of the before-loop of `new_execute_query` (tortoise_patch.py
lines 58-68): a raising `before` is caught and `None` recorded as that
listener's context. -/
def runBefore (l : Listener σ γ ε ρ) (q : String) (s : σ) : σ × Option γ :=
  match l.before q s with
  | .ok r => r
  | .error _ => (s, none)

/-- One step of the after-loop of `new_execute_query` (tortoise_patch.py
lines 80-87): each listener receives the context its own `before` returned,
and a raising `after` is caught (`except Exception: pass`). -/
def runAfter (l : Listener σ γ ε ρ) (c : Option γ) (q : String)
    (res : Option ρ) (exc : Option ε) (s : σ) : σ :=
  match l.after c q res exc s with
  | .ok s2 => s2
  | .error _ => s

/-- The `result` value the after-loop passes on (tortoise_patch.py lines
70-74): the operation's return value, or `None` when it raised. -/
def resultOf (op : Except ε ρ) : Option ρ :=
  match op with | .ok r => some r | .error _ => none

/-- The `exc` value the after-loop passes on (tortoise_patch.py lines
70-78): the raised exception, or `None` on success. -/
def errorOf (op : Except ε ρ) : Option ε :=
  match op with | .ok _ => none | .error e => some e

/-- `new_execute_query` (tortoise_patch.py lines 55-87): run every
listener's `before` (failures caught), run the original operation — whose
outcome `op` is returned to the caller unchanged by the `try/finally` —
then run every listener's `after` with that listener's own context, the
result (None on error) and the error (None on success), failures caught.
Returns the delivered outcome and each listener's final state. -/
def newExecuteQuery (ls : List (Listener σ γ ε ρ × σ)) (q : String)
    (op : Except ε ρ) : Except ε ρ × List σ :=
  let withCtx := ls.map fun p => (p.1, runBefore p.1 q p.2)
  (op, withCtx.map fun p => runAfter p.1 p.2.2 q (resultOf op) (errorOf op) p.2.1)

/-- A listener whose `before` and `after` always raise (the spec's
listener-isolation scenario, §8). -/
def failingListener : Listener (List String) Unit Unit Nat :=
  ⟨fun _ _ => .error (), fun _ _ _ _ _ => .error ()⟩

/-- A listener that appends every statement it observes to its own state,
the way `QueryCapture` records a captured query. -/
def recordingListener : Listener (List String) Unit Unit Nat :=
  ⟨fun _ s => .ok (s, some ()), fun _ q _ _ s => .ok (s ++ [q])⟩

/-! ### Storage schema (models.py) and retention sweep (radar.py) -/

/-- A `radar_requests` row (models.py `CapturedRequest`), restricted to the
columns the claims consult: unique correlation id and creation time. -/
structure RequestRow where
  requestId : String
  createdAt : Int
  deriving DecidableEq, Repr

/-- A `radar_queries` row (models.py `CapturedQuery`, lines 29-41): its
`request_id` column is declared `ForeignKeyField(..., to_field="request_id",
null=True, on_delete=fields.CASCADE)`. -/
structure QueryRow where
  requestId : Option String
  sql : String
  deriving DecidableEq, Repr

/-- A `radar_exceptions` row (models.py `CapturedException`, lines 43-52),
with the same nullable CASCADE foreign key. -/
structure ExceptionRow where
  requestId : Option String
  exceptionType : String
  deriving DecidableEq, Repr

/-- The three correlated tables of the storage schema. -/
structure RadarDB where
  requests : List RequestRow
  queries : List QueryRow
  exceptions : List ExceptionRow
  deriving DecidableEq, Repr

/-- Insert into `radar_queries` under the constraint declared in models.py
line 31: NULL passes (`null=True`), a non-null `request_id` must reference
an existing `radar_requests.request_id`, and a dangling reference is an
integrity error. -/
def insertQuery (db : RadarDB) (row : QueryRow) : Except Unit RadarDB :=
  match row.requestId with
  | none => .ok { db with queries := db.queries ++ [row] }
  | some rid =>
    if db.requests.any fun r => r.requestId = rid then
      .ok { db with queries := db.queries ++ [row] }
    else .error ()

/-- Insert into `radar_exceptions` under the constraint declared in
models.py line 45. -/
def insertException (db : RadarDB) (row : ExceptionRow) : Except Unit RadarDB :=
  match row.requestId with
  | none => .ok { db with exceptions := db.exceptions ++ [row] }
  | some rid =>
    if db.requests.any fun r => r.requestId = rid then
      .ok { db with exceptions := db.exceptions ++ [row] }
    else .error ()

/-- The CASCADE condition: the row's optional `request_id` references one
of the deleted requests (a NULL reference is never cascaded). -/
def refsDeleted (deleted : List RequestRow) : Option String → Bool
  | none => false
  | some rid => deleted.any fun r => r.requestId = rid

/-- `Radar.cleanup` (radar.py lines 184-191): delete every CapturedRequest
whose `created_at` is older than the cutoff and return the count; the
`on_delete=CASCADE` declared on the foreign keys (models.py lines 31 and 45)
then also deletes every CapturedQuery/CapturedException row whose
`request_id` references a deleted request. -/
def cleanup (db : RadarDB) (cutoff : Int) : RadarDB × Nat :=
  let deleted := db.requests.filter fun r => r.createdAt < cutoff
  ({ requests := db.requests.filter fun r => !(decide (r.createdAt < cutoff)),
     queries := db.queries.filter fun qr => !(refsDeleted deleted qr.requestId),
     exceptions :=
       db.exceptions.filter fun er => !(refsDeleted deleted er.requestId) },
   deleted.length)

/-! ### Capture orchestrator (middleware.py `RadarMiddleware.dispatch`) -/

/-- `RadarMiddleware._should_skip` (middleware.py lines 198-203): the path
starts with one of the excluded path prefixes. -/
def shouldSkip (excludePaths : List String) (path : String) : Bool :=
  excludePaths.any fun p => pyStartsWith path p

/-- The two ambient carriers: `request_context` (middleware.py line 28) and
`trace_context` (tracing.py line 11), `contextvars.ContextVar` bindings of
the current execution unit with `none` as the absence marker (the declared
default).  The trace-context carrier is identified by the bound trace id. -/
structure Carriers where
  requestContext : Option String
  traceContext : Option String
  deriving DecidableEq, Repr

/-- Accessors of a host exception: `type(e).__name__`, `str(e)` and
`traceback.format_exc()` as used by `RadarMiddleware._capture_exception`
(middleware.py lines 220-226). -/
structure ExceptionView (ε : Type) where
  kind : ε → String
  message : ε → String
  stack : ε → String

/-- A `radar_exceptions` row as created in the `finally` block of dispatch
(middleware.py lines 182-186). -/
structure CapturedExceptionRow where
  requestId : String
  exceptionType : String
  exceptionValue : String
  traceback : String
  deriving DecidableEq, Repr

/-- The observable outcome of one `dispatch` call. -/
structure DispatchOut (ε ρ : Type) where
  outcome : Except ε ρ
  carriers : Carriers
  exceptionRow : Option CapturedExceptionRow
  rootSpanStatus : Option String

/-- `RadarMiddleware.dispatch` (middleware.py lines 49-196) at the
granularity of the claims.  Excluded paths pass through untouched (lines
50-51).  Otherwise the correlation id is bound, a trace context is bound
when tracing is enabled (line 73), and the handler outcome `handler` is
delivered unchanged — a response is returned, an exception is re-raised by
the bare `raise` of line 161.  The `finally` block (lines 163-194) finishes
the root span with `error`/`ok`, persists the CapturedException row keyed by
the correlation id when the handler raised (swallowing persistence failures:
`dbOk` false), resets `request_context` to `None` (line 194) and never
resets `trace_context`.  Body and header capture are modelled separately
(`redactHeaders`, `redactJsonBody`). -/
def dispatch (excludePaths : List String) (path : String)
    (enableTracing : Bool) (rid traceId : String) (prior : Carriers)
    (view : ExceptionView ε) (handler : Except ε ρ) (dbOk : Bool) :
    DispatchOut ε ρ :=
  if shouldSkip excludePaths path then
    { outcome := handler, carriers := prior, exceptionRow := none,
      rootSpanStatus := none }
  else
    let afterTrace : Option String :=
      if enableTracing then some traceId else prior.traceContext
    match handler with
    | .ok r =>
      { outcome := .ok r,
        carriers := { requestContext := none, traceContext := afterTrace },
        exceptionRow := none,
        rootSpanStatus := if enableTracing then some "ok" else none }
    | .error e =>
      { outcome := .error e,
        carriers := { requestContext := none, traceContext := afterTrace },
        exceptionRow := if dbOk then
          some ⟨rid, view.kind e, view.message e, view.stack e⟩ else none,
        rootSpanStatus := if enableTracing then some "error" else none }

/-! ### Waterfall reconstruction (tracing.py `get_waterfall_data`) -/

/-- A `radar_spans` row as read by the waterfall query (tracing.py lines
179-201), restricted to the columns the claims consult; `startMs` is the
span start time on a millisecond scale (the query converts `julianday` days
by the factor 86400000). -/
structure SpanRow where
  spanId : String
  traceId : String
  startMs : Int
  deriving DecidableEq, Repr

/-- A `radar_span_relations` row as consulted by the waterfall LEFT JOIN. -/
structure RelRow where
  childSpanId : String
  depth : Nat
  deriving DecidableEq, Repr

/-- One row of the reconstructed waterfall. -/
structure WaterfallRow where
  spanId : String
  depth : Nat
  offsetMs : Int
  deriving DecidableEq, Repr

/-- The `COALESCE(r.depth, 0)` column of the waterfall query: the depth of
the relation row naming this span as child, or 0 when there is none (the
root span and orphaned spans have no such row). -/
def relDepth (rels : List RelRow) (sid : String) : Nat :=
  ((rels.find? fun r => r.childSpanId = sid).map (·.depth)).getD 0

/-- `MIN(julianday(s.start_time)) OVER (PARTITION BY s.trace_id)` on the
millisecond scale: the least start time of the listed spans. -/
def minStart : List Int → Int
  | [] => 0
  | x :: xs => xs.foldl min x

/-- The `ORDER BY offset_ms, depth` comparison. -/
def waterfallLe (a b : WaterfallRow) : Prop :=
  a.offsetMs < b.offsetMs ∨ (a.offsetMs = b.offsetMs ∧ a.depth ≤ b.depth)

instance : DecidableRel waterfallLe := fun a b => by
  unfold waterfallLe; exact inferInstance

/-- `TracingManager.get_waterfall_data` (tracing.py lines 172-229): take the
spans of the trace, annotate each with `COALESCE(r.depth, 0)` from the LEFT
JOIN on `child_span_id` (`_save_span_relations` emits at most one relation
row per child span, so the join yields one output row per span) and with
`offset_ms` = start − least start of the trace, and return them ordered by
`offset_ms` then `depth`. -/
def getWaterfallData (spans : List SpanRow) (rels : List RelRow)
    (traceId : String) : List WaterfallRow :=
  let ts := spans.filter fun s => s.traceId = traceId
  let m := minStart (ts.map (·.startMs))
  (ts.map fun s => ⟨s.spanId, relDepth rels s.spanId, s.startMs - m⟩).insertionSort
    waterfallLe

instance : IsTotal WaterfallRow waterfallLe := by
  constructor
  intro a b
  rcases lt_trichotomy a.offsetMs b.offsetMs with h | h | h
  · exact Or.inl (Or.inl h)
  · rcases Nat.le_total a.depth b.depth with hd | hd
    · exact Or.inl (Or.inr ⟨h, hd⟩)
    · exact Or.inr (Or.inr ⟨h.symm, hd⟩)
  · exact Or.inr (Or.inl h)

instance : IsTrans WaterfallRow waterfallLe := by
  constructor
  intro a b c hab hbc
  rcases hab with h1 | ⟨h1, d1⟩ <;> rcases hbc with h2 | ⟨h2, d2⟩
  · exact Or.inl (lt_trans h1 h2)
  · exact Or.inl (h2 ▸ h1)
  · exact Or.inl (h1 ▸ h2)
  · exact Or.inr ⟨h1.trans h2, d1.trans d2⟩

/-- Three spans of one trace starting at t0, t0 + 10ms and t0 + 5ms (the
spec's waterfall example), with t0 = 1000ms and no relation rows. -/
def waterfallExampleSpans : List SpanRow :=
  [⟨"s1", "T", 1000⟩, ⟨"s2", "T", 1010⟩, ⟨"s3", "T", 1005⟩]

/-! ### Redaction (middleware.py lines 92-104; utils.py is not among the
provided sources, so the redaction helpers are modelled from the spec) -/

/-- Modelled from the spec: the fixed redaction marker string that
`redact_sensitive_data` and `serialize_headers` (imported by middleware.py
from `fastapi_radar/utils.py`, a module missing from the provided sources)
substitute for sensitive values (§6 Redaction set). -/
def redactionMarker : String := "[REDACTED]"

/-- Modelled from the spec: the enumerated set of sensitive header and body
field names (§6: "an enumerated set of header names and body field names
(case-insensitive)"). -/
def sensitiveKeys : List String :=
  ["authorization", "password", "secret", "token", "api_key", "cookie"]

/-- Modelled from the spec: a header or JSON field name is sensitive when
its lower-cased form contains one of the enumerated names (§6: "matching is
substring/key-based, not regex-based", case-insensitive). -/
def isSensitiveKey (name : String) : Bool :=
  sensitiveKeys.any fun k => pyContains k (pyLower name)

/-- Modelled from the spec: header serialization replaces the value of every
sensitive header with the redaction marker and keeps the rest verbatim. -/
def redactHeaders (headers : List (String × String)) : List (String × String) :=
  headers.map fun h => if isSensitiveKey h.1 then (h.1, redactionMarker) else h

/-- Modelled from the spec: `redact_sensitive_data` on a JSON object body,
represented by its key/value pairs: sensitive fields get the marker,
unrelated fields stay visible unchanged. -/
def redactJsonBody (body : List (String × String)) : List (String × String) :=
  body.map fun kv => if isSensitiveKey kv.1 then (kv.1, redactionMarker) else kv

/-- The stored body text for a JSON object body: its fields rendered as
`"key": "value"` items. -/
def renderBody (body : List (String × String)) : String :=
  String.intercalate ", "
    (body.map fun kv => "\"" ++ kv.1 ++ "\": \"" ++ kv.2 ++ "\"")

/-- The spec's listener-isolation scenario: one always-raising listener
registered before one correctly-functioning recording listener, each with
an empty capture log. -/
def listenerPairExample :
    List (Listener (List String) Unit Unit Nat × List String) :=
  [(failingListener, []), (recordingListener, [])]

/-- A concrete view of `Unit`-typed host exceptions. -/
def unitExceptionView : ExceptionView Unit :=
  ⟨fun _ => "Exception", fun _ => "", fun _ => ""⟩

/-- A concrete view of `String`-typed host exceptions: the string is the
message, with fixed kind and a formatted stack derived from it. -/
def stringExceptionView : ExceptionView String :=
  ⟨fun _ => "ValueError", fun e => e, fun e => "Traceback: " ++ e⟩

lemma reachN_trans {spans : List SpanData} {x y z : String} {n m : Nat}
    (h1 : ReachN spans x n y) (h2 : ReachN spans y m z) :
    ReachN spans x (n + m) z := by
  induction h2 with
  | refl => exact h1
  | step _ hmem hedge ih => exact ReachN.step ih hmem hedge

lemma relScan_mem {spans : List SpanData} {fuel : Nat} {x : String} {dx : Nat}
    {cand : List SpanData} {l : List Rel}
    (h : relScan (calculateDepth spans fuel) x dx cand = some l)
    {p c : String} {d : Nat} (hm : (p, c, d) ∈ l) :
    (p = x ∧ d = dx + 1 ∧ ∃ s ∈ cand, s.spanId = c ∧ s.parentSpanId = some x) ∨
    (∃ s ∈ cand, s.parentSpanId = some x ∧
      ∃ l', calculateDepth spans fuel s.spanId (dx + 1) = some l' ∧ (p, c, d) ∈ l') := by
  induction cand generalizing l with
  | nil =>
    simp only [relScan, Option.some.injEq] at h
    subst h; simp at hm
  | cons s rest ih =>
    by_cases hp : s.parentSpanId = some x
    · rw [relScan, if_pos hp, Option.bind_eq_some] at h
      obtain ⟨sub, hsub, h2⟩ := h
      rw [Option.map_eq_some'] at h2
      obtain ⟨tail, htail, rfl⟩ := h2
      rcases List.mem_cons.mp hm with hhead | hrest
      · obtain ⟨rfl, rfl, rfl⟩ := Prod.mk.injEq .. ▸ hhead
        · exact Or.inl ⟨rfl, rfl, s, List.mem_cons_self .., rfl, hp⟩
      · rcases List.mem_append.mp hrest with hsubm | htailm
        · exact Or.inr ⟨s, List.mem_cons_self .., hp, sub, hsub, hsubm⟩
        · rcases ih htail htailm with ⟨h1, h2, t, ht, h3⟩ | ⟨t, ht, h1, h2⟩
          · exact Or.inl ⟨h1, h2, t, List.mem_cons_of_mem _ ht, h3⟩
          · exact Or.inr ⟨t, List.mem_cons_of_mem _ ht, h1, h2⟩
    · rw [relScan, if_neg hp] at h
      rcases ih h hm with ⟨h1, h2, t, ht, h3⟩ | ⟨t, ht, h1, h2⟩
      · exact Or.inl ⟨h1, h2, t, List.mem_cons_of_mem _ ht, h3⟩
      · exact Or.inr ⟨t, List.mem_cons_of_mem _ ht, h1, h2⟩

/-- Every relation row `(p, c, d)` computed by `calculate_depth` started at
`x` with depth `dx` is an immediate parent/child edge of the span dict, with
`p` present in the dict, reachable from `x` in exactly `d - dx - 1` steps. -/
lemma calculateDepth_mem {spans : List SpanData} :
    ∀ {fuel : Nat} {x : String} {dx : Nat} {l : List Rel},
      calculateDepth spans fuel x dx = some l →
      ∀ {p c : String} {d : Nat}, (p, c, d) ∈ l →
      ∃ k, d = dx + 1 + k ∧ ReachN spans x k p ∧ InSpanMap spans p ∧
        SpanEdge spans p c := by
  intro fuel
  induction fuel with
  | zero => intro x dx l h; simp [calculateDepth] at h
  | succ f ih =>
    intro x dx l h p c d hm
    by_cases hx : (spans.find? fun s => s.spanId = x).isSome
    · rw [calculateDepth, if_pos hx] at h
      rcases relScan_mem h hm with ⟨rfl, rfl, s, hs, hsc, hsp⟩ |
        ⟨s, hs, hsp, l', hl', hm'⟩
      · exact ⟨0, by omega, ReachN.refl, hx, s, hs, hsc, hsp⟩
      · obtain ⟨k, hk, hr, hpm, he⟩ := ih hl' hm'
        refine ⟨k + 1, by omega, ?_, hpm, he⟩
        have h1 : ReachN spans x 1 s.spanId :=
          ReachN.step ReachN.refl hx ⟨s, hs, rfl, hsp⟩
        have h2 := reachN_trans h1 hr
        simpa [Nat.add_comm] using h2
    · rw [calculateDepth, if_neg hx] at h
      obtain rfl : ([] : List Rel) = l := Option.some.injEq .. ▸ h
      simp at hm

lemma relScan_isSome {spans : List SpanData} {fuel : Nat} {x : String}
    {dx : Nat} {cand : List SpanData}
    (h : ∀ s ∈ cand, s.parentSpanId = some x →
      (calculateDepth spans fuel s.spanId (dx + 1)).isSome) :
    (relScan (calculateDepth spans fuel) x dx cand).isSome := by
  induction cand with
  | nil => simp [relScan]
  | cons s rest ih =>
    by_cases hp : s.parentSpanId = some x
    · rw [relScan, if_pos hp]
      obtain ⟨sub, hsub⟩ := Option.isSome_iff_exists.mp
        (h s (List.mem_cons_self ..) hp)
      obtain ⟨tail, htail⟩ := Option.isSome_iff_exists.mp
        (ih fun t ht hpt => h t (List.mem_cons_of_mem _ ht) hpt)
      rw [hsub, htail]; rfl
    · rw [relScan, if_neg hp]
      exact ih fun t ht hpt => h t (List.mem_cons_of_mem _ ht) hpt

/-- With a rank function that strictly increases from parent to child and is
bounded by `B` on the span dict (i.e. the parent pointers are acyclic among
spans of the dict), `calculate_depth` returns within `fuel` nested calls as
soon as `fuel ≥ 1` and `fuel ≥ B - rank x`. -/
lemma calculateDepth_isSome {spans : List SpanData} {rank : String → Nat}
    {B : Nat}
    (hrank : ∀ s ∈ spans, ∀ t ∈ spans, s.parentSpanId = some t.spanId →
      rank t.spanId < rank s.spanId)
    (hbound : ∀ s ∈ spans, rank s.spanId < B) :
    ∀ fuel x dx, 1 ≤ fuel → B ≤ rank x + fuel →
      (calculateDepth spans fuel x dx).isSome := by
  intro fuel
  induction fuel with
  | zero => intro x dx h1 _; omega
  | succ f ih =>
    intro x dx _ hB
    by_cases hx : (spans.find? fun s => s.spanId = x).isSome
    · rw [calculateDepth, if_pos hx]
      obtain ⟨t, ht, htx⟩ := List.find?_isSome.mp hx
      have htx' : t.spanId = x := by simpa using htx
      apply relScan_isSome
      intro s hs hp
      have h1 : rank x < rank s.spanId := by
        have h0 := hrank s hs t ht (by rw [htx', hp])
        rwa [htx'] at h0
      have h2 : rank s.spanId < B := hbound s hs
      exact ih s.spanId (dx + 1) (by omega) (by omega)
    · rw [calculateDepth, if_neg hx]; rfl

lemma cycle_diverges : ∀ fuel dx,
    calculateDepth cycleSpans fuel "r" dx = none ∧
    calculateDepth cycleSpans fuel "a" dx = none := by
  intro fuel
  induction fuel with
  | zero => intro dx; exact ⟨rfl, rfl⟩
  | succ f ih =>
    intro dx
    constructor
    · show (calculateDepth cycleSpans f "a" (dx + 1)).bind _ = none
      rw [(ih (dx + 1)).2]; rfl
    · show (calculateDepth cycleSpans f "r" (dx + 1)).bind _ = none
      rw [(ih (dx + 1)).1]; rfl

lemma find?_status_update (l : List SpanData) (sid st : String)
    (h : (l.any fun s => s.spanId = sid) = true) :
    (((l.map fun s => if s.spanId = sid then { s with status := st } else s).find?
        fun s => s.spanId = sid).map (·.status)) = some st := by
  induction l with
  | nil => simp at h
  | cons s rest ih =>
    by_cases hs : s.spanId = sid
    · simp [List.find?_cons, hs]
    · have h2 : (rest.any fun s => s.spanId = sid) = true := by
        simpa [List.any_cons, hs] using h
      simpa [List.find?_cons, hs] using ih h2

lemma spanStatus_finishSpan (t : TraceCtxState) (sid st : String)
    (h : (t.spans.any fun s => s.spanId = sid) = true) :
    spanStatus (finishSpan t sid st) sid = some st := by
  unfold spanStatus finishSpan
  rw [if_pos h]
  simpa using find?_status_update t.spans sid st h

lemma foldl_min_le_init (l : List Int) (a : Int) : l.foldl min a ≤ a := by
  induction l generalizing a with
  | nil => simp
  | cons x xs ih => exact le_trans (ih (min a x)) (min_le_left a x)

lemma foldl_min_le_mem {l : List Int} {x : Int} (h : x ∈ l) (a : Int) :
    l.foldl min a ≤ x := by
  induction l generalizing a with
  | nil => simp at h
  | cons y ys ih =>
    rcases List.mem_cons.mp h with rfl | h2
    · exact le_trans (foldl_min_le_init ys (min a x)) (min_le_right a x)
    · exact ih h2 (min a y)

lemma minStart_le {l : List Int} {x : Int} (h : x ∈ l) : minStart l ≤ x := by
  cases l with
  | nil => simp at h
  | cons y ys =>
    rcases List.mem_cons.mp h with rfl | h2
    · exact foldl_min_le_init ys x
    · exact foldl_min_le_mem h2 y

/-! ### Claims -/

/-- C1 (corrected): every SpanRelation row persisted from an in-memory
trace context is an immediate (parent, child) edge of the span set — not a
general ancestor/descendant pair — the parent being reachable from the root
in depth − 1 steps, so the stored depth is ≥ 1 and equals the number of
edges from the ROOT to the child, not from the row's parent to its child;
the chain root→A→B→C yields exactly (root,A,1), (A,B,2), (B,C,3). -/
theorem C1_relation_rows_are_immediate_edges (spans : List SpanData)
    (root : String) (fuel : Nat) (l : List Rel)
    (h : calculateDepth spans fuel root 0 = some l) :
    (∀ p c d, (p, c, d) ∈ l →
      1 ≤ d ∧ SpanEdge spans p c ∧ ReachN spans root (d - 1) p) ∧
    calculateDepth chainSpans 10 "root" 0 =
      some [("root", "A", 1), ("A", "B", 2), ("B", "C", 3)] := by
  refine ⟨?_, by decide⟩
  intro p c d hm
  obtain ⟨k, hk, hr, hpm, he⟩ := calculateDepth_mem h hm
  refine ⟨by omega, he, ?_⟩
  have hd : d - 1 = k := by omega
  exact hd ▸ hr

/-- Witness for C1: the conclusion instantiated on the chain root→A→B→C. -/
theorem C1_relation_rows_are_immediate_edges_witness :
    (∀ p c d,
      (p, c, d) ∈ ([("root", "A", 1), ("A", "B", 2), ("B", "C", 3)] : List Rel) →
      1 ≤ d ∧ SpanEdge chainSpans p c ∧ ReachN chainSpans "root" (d - 1) p) ∧
    calculateDepth chainSpans 10 "root" 0 =
      some [("root", "A", 1), ("A", "B", 2), ("B", "C", 3)] :=
  C1_relation_rows_are_immediate_edges chainSpans "root" 10 _ (by decide)

/-- C1 counterexample: for the chain root→A→B→C the persisted relation set
contains neither the transitive pair (root, B, 2) nor the immediate pair
(A, B) at depth 1 — it stores (A, B) with depth 2, the child's distance
from the root rather than the one edge from A to B — so it is not the
claimed set of all ancestor/descendant pairs with path-length depths. -/
theorem C1_counterexample :
    ("root", "B", 2) ∉ (calculateDepth chainSpans 10 "root" 0).getD [] ∧
    ("A", "B", 1) ∉ (calculateDepth chainSpans 10 "root" 0).getD [] ∧
    ("A", "B", 2) ∈ (calculateDepth chainSpans 10 "root" 0).getD [] := by decide

/-- C9 (corrected): the span-relation computation terminates whenever the
parent pointers of the span set are acyclic — witnessed by a rank function
that increases from parent to child and is bounded by `B` — a call-stack
budget of `B + 1` frames sufficing from any root; and every relation row it
then emits names only spans reachable from the declared root (the parent in
depth − 1 steps, the child in depth steps), so spans unreachable from the
root produce no rows.  On a parent-pointer cycle reachable from the root,
however, the traversal — naive recursion, not the claimed iterative,
cycle-breaking one — never returns (see the counterexample). -/
theorem C9_traversal_terminates_when_acyclic (spans : List SpanData)
    (root : String) (rank : String → Nat) (B : Nat)
    (hrank : ∀ s ∈ spans, ∀ t ∈ spans, s.parentSpanId = some t.spanId →
      rank t.spanId < rank s.spanId)
    (hbound : ∀ s ∈ spans, rank s.spanId < B) :
    ∃ l, calculateDepth spans (B + 1) root 0 = some l ∧
      ∀ p c d, (p, c, d) ∈ l →
        ReachN spans root (d - 1) p ∧ ReachN spans root d c := by
  obtain ⟨l, hl⟩ := Option.isSome_iff_exists.mp
    (calculateDepth_isSome hrank hbound (B + 1) root 0 (by omega) (by omega))
  refine ⟨l, hl, ?_⟩
  intro p c d hm
  obtain ⟨k, hk, hr, hpm, he⟩ := calculateDepth_mem hl hm
  have hd1 : d - 1 = k := by omega
  refine ⟨hd1 ▸ hr, ?_⟩
  have hstep : ReachN spans root (k + 1) c := ReachN.step hr hpm he
  have hd : d = k + 1 := by omega
  exact hd ▸ hstep

/-- Witness for C9: the chain root→A→B→C with its distance-from-root rank
function, bounded by 4. -/
theorem C9_traversal_terminates_when_acyclic_witness :
    ∃ l, calculateDepth chainSpans (4 + 1) "root" 0 = some l ∧
      ∀ p c d, (p, c, d) ∈ l →
        ReachN chainSpans "root" (d - 1) p ∧ ReachN chainSpans "root" d c :=
  C9_traversal_terminates_when_acyclic chainSpans "root" chainRank 4
    (by decide) (by decide)

/-- C9 counterexample: on the two-span set whose parent pointers form a
cycle reachable from the root "r", `calculate_depth` never returns — the
embedding yields `none` at every call-stack budget — so a malformed parent
pointer does make the traversal loop forever, contrary to the claim. -/
theorem C9_counterexample : DivergesFrom cycleSpans "r" :=
  fun fuel => (cycle_diverges fuel 0).1

/-- C2 (confirmed): the wrapped execution point delivers exactly the
unwrapped operation's outcome to the caller — whatever any listener does —
and every registered listener's final state is the one produced by its own
`before` and `after` hooks on the shared statement and outcome, computed
independently of every other listener, with `after` receiving the context
that the same listener's `before` returned (a raising hook is caught,
recording an absent context or leaving the state unchanged). -/
theorem C2_listener_isolation {σ γ ε ρ : Type}
    (ls : List (Listener σ γ ε ρ × σ)) (q : String) (op : Except ε ρ)
    (i : Nat) (hi : i < ls.length) :
    (newExecuteQuery ls q op).1 = op ∧
    (newExecuteQuery ls q op).2.length = ls.length ∧
    (newExecuteQuery ls q op).2[i]? =
      some (runAfter ls[i].1 (runBefore ls[i].1 q ls[i].2).2 q
        (resultOf op) (errorOf op) (runBefore ls[i].1 q ls[i].2).1) := by
  refine ⟨rfl, by simp [newExecuteQuery], ?_⟩
  simp [newExecuteQuery, List.map_map, List.getElem?_map,
    List.getElem?_eq_getElem hi, Function.comp]

/-- Witness for C2: a raising listener registered before a recording one;
the caller still receives the operation's result and the recording listener
still captures the statement. -/
theorem C2_listener_isolation_witness :
    (newExecuteQuery listenerPairExample "SELECT 1"
      (Except.ok 7 : Except Unit Nat)).1 = Except.ok 7 ∧
    (newExecuteQuery listenerPairExample "SELECT 1"
      (Except.ok 7 : Except Unit Nat)).2.length =
      listenerPairExample.length ∧
    (newExecuteQuery listenerPairExample "SELECT 1"
      (Except.ok 7 : Except Unit Nat)).2[1]? =
      some (runAfter listenerPairExample[1].1
        (runBefore listenerPairExample[1].1 "SELECT 1"
          listenerPairExample[1].2).2 "SELECT 1"
        (resultOf (Except.ok 7 : Except Unit Nat))
        (errorOf (Except.ok 7 : Except Unit Nat))
        (runBefore listenerPairExample[1].1 "SELECT 1"
          listenerPairExample[1].2).1) :=
  C2_listener_isolation listenerPairExample "SELECT 1"
    (Except.ok 7 : Except Unit Nat) 1 (by decide)

/-- C3 (corrected): the CapturedQuery/CapturedException link to
CapturedRequest is a real — though nullable — foreign key declared ON
DELETE CASCADE, not an advisory reference: a child row with an absent
correlation id is accepted, a child row whose correlation id matches no
CapturedRequest is rejected by the constraint, and deleting CapturedRequest
rows through the retention cleanup also deletes exactly the child rows
referencing them, keeping the children with absent or surviving
references. -/
theorem C3_nullable_cascade_fk (db : RadarDB) (row : QueryRow)
    (cutoff : Int) (rid : String) (qr : QueryRow) :
    (row.requestId = none →
      insertQuery db row = .ok { db with queries := db.queries ++ [row] }) ∧
    (row.requestId = some rid →
      (db.requests.any fun r => r.requestId = rid) = false →
      insertQuery db row = .error ()) ∧
    (qr.requestId = none →
      (qr ∈ (cleanup db cutoff).1.queries ↔ qr ∈ db.queries)) ∧
    (qr.requestId = some rid →
      (qr ∈ (cleanup db cutoff).1.queries ↔ qr ∈ db.queries ∧
        ∀ req ∈ db.requests, req.createdAt < cutoff → req.requestId ≠ rid)) ∧
    (cleanup db cutoff).2 =
      (db.requests.filter fun r => r.createdAt < cutoff).length := by
  refine ⟨?_, ?_, ?_, ?_, rfl⟩
  · intro h; simp [insertQuery, h]
  · intro h h2; simp [insertQuery, h, h2]
  · intro h
    have hq0 : (cleanup db cutoff).1.queries = db.queries.filter
        (fun qr2 => !(refsDeleted
          (db.requests.filter fun r => r.createdAt < cutoff)
          qr2.requestId)) := rfl
    rw [hq0, List.mem_filter]
    simp [refsDeleted, h]
  · intro h
    have hq0 : (cleanup db cutoff).1.queries = db.queries.filter
        (fun qr2 => !(refsDeleted
          (db.requests.filter fun r => r.createdAt < cutoff)
          qr2.requestId)) := rfl
    rw [hq0, List.mem_filter]
    constructor
    · rintro ⟨hq, hb⟩
      refine ⟨hq, fun req hreq hlt => ?_⟩
      intro hne
      rw [h] at hb
      have hany : ((db.requests.filter fun r => r.createdAt < cutoff).any
          fun r => r.requestId = rid) = false := by
        simpa [refsDeleted] using hb
      have hmem2 : req ∈ db.requests.filter fun r => r.createdAt < cutoff :=
        List.mem_filter.mpr ⟨hreq, by simpa using hlt⟩
      have hfalse := List.any_eq_false.mp hany req hmem2
      simp [hne] at hfalse
    · rintro ⟨hq, hall⟩
      refine ⟨hq, ?_⟩
      rw [h]
      have hany : ((db.requests.filter fun r => r.createdAt < cutoff).any
          fun r => r.requestId = rid) = false := by
        rw [List.any_eq_false]
        intro req hreq
        obtain ⟨h1, h2⟩ := List.mem_filter.mp hreq
        simpa using hall req h1 (by simpa using h2)
      simp [refsDeleted, hany]

/-- C3 counterexample: inserting a CapturedQuery whose correlation id has no
matching CapturedRequest is rejected by the foreign-key constraint, and the
retention cleanup that deletes a CapturedRequest also deletes the
CapturedQuery row referencing it. -/
theorem C3_counterexample :
    insertQuery ⟨[⟨"r1", 0⟩], [], []⟩ ⟨some "missing", "SELECT 1"⟩ =
      .error () ∧
    (cleanup ⟨[⟨"r1", 0⟩], [⟨some "r1", "SELECT 1"⟩], []⟩ 1).1.requests = [] ∧
    (cleanup ⟨[⟨"r1", 0⟩], [⟨some "r1", "SELECT 1"⟩], []⟩ 1).1.queries = [] :=
  ⟨rfl, rfl, rfl⟩

/-- C4 (corrected): after the completion path of dispatch on a non-excluded
request with tracing enabled, the correlation-id carrier is cleared — a
subsequent read from the same execution unit returns the absence marker —
but the trace-context carrier is NOT cleared: it still holds the trace
context bound at request start, whether the handler succeeded or raised. -/
theorem C4_carriers_after_dispatch {ε ρ : Type} (excludePaths : List String)
    (path rid traceId : String) (prior : Carriers) (view : ExceptionView ε)
    (handler : Except ε ρ) (dbOk : Bool)
    (hskip : shouldSkip excludePaths path = false) :
    (dispatch excludePaths path true rid traceId prior view handler
      dbOk).carriers.requestContext = none ∧
    (dispatch excludePaths path true rid traceId prior view handler
      dbOk).carriers.traceContext = some traceId := by
  cases handler <;> simp [dispatch, hskip]

/-- Witness for C4: a traced request to a non-excluded path whose handler
returns normally. -/
theorem C4_carriers_after_dispatch_witness :
    (dispatch [] "/api" true "rid1" "trace1" ⟨none, none⟩ unitExceptionView
      (Except.ok (0 : Nat)) true).carriers.requestContext = none ∧
    (dispatch [] "/api" true "rid1" "trace1" ⟨none, none⟩ unitExceptionView
      (Except.ok (0 : Nat)) true).carriers.traceContext = some "trace1" :=
  C4_carriers_after_dispatch [] "/api" "rid1" "trace1" ⟨none, none⟩
    unitExceptionView (Except.ok 0) true rfl

/-- C4 counterexample: on a concrete non-excluded traced request the
trace-context carrier still holds the trace context after completion — it
does not return the absence marker, so the claim that both carriers read as
absent afterwards is false. -/
theorem C4_counterexample :
    (dispatch [] "/api" true "rid1" "trace1" ⟨none, none⟩ unitExceptionView
      (Except.ok (0 : Nat)) true).carriers.traceContext = some "trace1" ∧
    some "trace1" ≠ (none : Option String) := by
  exact ⟨rfl, by decide⟩

/-- C5 (confirmed; utils.py is spec-modelled): sensitive headers are stored
with the fixed redaction marker as value and sensitive JSON body fields are
stored with the marker, while fields and headers with non-sensitive names
stay visible unchanged; on the spec's example the stored header value for
Authorization equals the marker and the stored body no longer contains
secret123, does contain the marker, and still shows "username": "john". -/
theorem C5_redaction_marks_sensitive_fields :
    (∀ hs : List (String × String), ∀ h ∈ hs, isSensitiveKey h.1 = true →
      (h.1, redactionMarker) ∈ redactHeaders hs) ∧
    (∀ hs : List (String × String), ∀ h ∈ hs, isSensitiveKey h.1 = false →
      h ∈ redactHeaders hs) ∧
    (∀ body : List (String × String), ∀ kv ∈ body,
      isSensitiveKey kv.1 = false → kv ∈ redactJsonBody body) ∧
    redactHeaders [("Authorization", "Bearer X"), ("Accept", "text/html")] =
      [("Authorization", redactionMarker), ("Accept", "text/html")] ∧
    renderBody (redactJsonBody
      [("username", "john"), ("password", "secret123")]) =
      "\"username\": \"john\", \"password\": \"[REDACTED]\"" ∧
    pyContains "secret123" (renderBody (redactJsonBody
      [("username", "john"), ("password", "secret123")])) = false ∧
    pyContains redactionMarker (renderBody (redactJsonBody
      [("username", "john"), ("password", "secret123")])) = true ∧
    pyContains "\"username\": \"john\"" (renderBody (redactJsonBody
      [("username", "john"), ("password", "secret123")])) = true := by
  refine ⟨?_, ?_, ?_, by decide, by decide, by decide, by decide, by decide⟩
  · intro hs h hm hsens
    exact List.mem_map.mpr ⟨h, hm, by simp [hsens]⟩
  · intro hs h hm hsens
    exact List.mem_map.mpr ⟨h, hm, by simp [hsens]⟩
  · intro body kv hm hsens
    exact List.mem_map.mpr ⟨kv, hm, by simp [hsens]⟩

lemma afterQueryStatus_spec (exc : Bool) (dur th : Int) :
    (afterQueryStatus exc dur th = "error" ↔ exc = true) ∧
    (afterQueryStatus exc dur th = "slow" ↔ exc = false ∧ th ≤ dur) ∧
    (afterQueryStatus exc dur th = "ok" ↔ exc = false ∧ dur < th) := by
  cases exc <;> by_cases hth : th ≤ dur <;>
    simp only [afterQueryStatus, hth, if_true, if_false, ite_true, ite_false,
      Bool.false_eq_true, Bool.true_eq_false, if_pos, if_neg] <;>
    constructor <;> simp <;> omega

/-- C6 (confirmed): when the query-capture listener finishes the span it
opened for a captured query, the span's stored status is `error` exactly
when the operation raised, `slow` exactly when it did not raise and the
measured duration reached the configured slow-query threshold, and `ok`
exactly when it did not raise and stayed below the threshold — so `slow`
and `error` are mutually exclusive, with `error` taking precedence. -/
theorem C6_slow_query_classification (t : TraceCtxState) (c : QueryCtx)
    (sid query : String) (exc dbOk : Bool) (now th : Int)
    (hsid : c.spanId = some sid)
    (hin : (t.spans.any fun s => s.spanId = sid) = true) :
    (afterQuery (some c) query exc (some t) now th dbOk).1 =
      some (finishSpan t sid (afterQueryStatus exc (now - c.startTime) th)) ∧
    spanStatus ((afterQuery (some c) query exc (some t) now th dbOk).1.getD t)
      sid = some (afterQueryStatus exc (now - c.startTime) th) ∧
    (afterQueryStatus exc (now - c.startTime) th = "error" ↔ exc = true) ∧
    (afterQueryStatus exc (now - c.startTime) th = "slow" ↔
      exc = false ∧ th ≤ now - c.startTime) ∧
    (afterQueryStatus exc (now - c.startTime) th = "ok" ↔
      exc = false ∧ now - c.startTime < th) := by
  have h1 : (afterQuery (some c) query exc (some t) now th dbOk).1 =
      some (finishSpan t sid (afterQueryStatus exc (now - c.startTime) th)) := by
    simp [afterQuery, hsid]
  obtain ⟨he, hs, ho⟩ := afterQueryStatus_spec exc (now - c.startTime) th
  refine ⟨h1, ?_, he, hs, ho⟩
  rw [h1]
  exact spanStatus_finishSpan t sid _ hin

/-- Witness for C6: a captured query without error whose 150ms duration
reaches the 100ms threshold: its span is finished `slow`. -/
theorem C6_slow_query_classification_witness :
    (afterQuery (some ⟨some "rid", 0, some "s1"⟩) "SELECT 1" false
      (some ⟨"t", some "s1", some "s1", [⟨"s1", none, "ok"⟩]⟩) 150 100
      true).1 = some (finishSpan ⟨"t", some "s1", some "s1",
        [⟨"s1", none, "ok"⟩]⟩ "s1" (afterQueryStatus false (150 - 0) 100)) ∧
    spanStatus ((afterQuery (some ⟨some "rid", 0, some "s1"⟩) "SELECT 1" false
      (some ⟨"t", some "s1", some "s1", [⟨"s1", none, "ok"⟩]⟩) 150 100
      true).1.getD ⟨"t", some "s1", some "s1", [⟨"s1", none, "ok"⟩]⟩) "s1" =
      some (afterQueryStatus false (150 - 0) 100) ∧
    (afterQueryStatus false (150 - 0) 100 = "error" ↔ false = true) ∧
    (afterQueryStatus false (150 - 0) 100 = "slow" ↔
      false = false ∧ (100 : Int) ≤ 150 - 0) ∧
    (afterQueryStatus false (150 - 0) 100 = "ok" ↔
      false = false ∧ (150 - 0 : Int) < 100) :=
  C6_slow_query_classification ⟨"t", some "s1", some "s1",
    [⟨"s1", none, "ok"⟩]⟩ ⟨some "rid", 0, some "s1"⟩ "s1" "SELECT 1" false
    true 150 100 rfl (by decide)

/-- C7 (confirmed): when the wrapped handler raises, dispatch re-raises the
very same exception to the original caller — even when every capture-side
persistence step fails — and, when persistence succeeds, records the
exception's kind, message and formatted stack keyed by the correlation id. -/
theorem C7_host_fault_recorded_and_reraised {ε ρ : Type}
    (excludePaths : List String) (path rid traceId : String)
    (prior : Carriers) (view : ExceptionView ε) (e : ε)
    (enableTracing dbOk : Bool)
    (hskip : shouldSkip excludePaths path = false) :
    (dispatch excludePaths path enableTracing rid traceId prior view
      (Except.error e : Except ε ρ) dbOk).outcome = Except.error e ∧
    (dispatch excludePaths path enableTracing rid traceId prior view
      (Except.error e : Except ε ρ) true).exceptionRow =
      some ⟨rid, view.kind e, view.message e, view.stack e⟩ :=
  ⟨by simp [dispatch, hskip], by simp [dispatch, hskip]⟩

/-- Witness for C7: a handler raising "boom"; the outcome is that same
exception even with failing persistence, and with working persistence the
row keyed by the correlation id holds its kind, message and stack. -/
theorem C7_host_fault_recorded_and_reraised_witness :
    (dispatch [] "/boom" true "rid1" "trace1" ⟨none, none⟩
      stringExceptionView (Except.error "boom" : Except String Nat)
      false).outcome = Except.error "boom" ∧
    (dispatch [] "/boom" true "rid1" "trace1" ⟨none, none⟩
      stringExceptionView (Except.error "boom" : Except String Nat)
      true).exceptionRow =
      some ⟨"rid1", stringExceptionView.kind "boom",
        stringExceptionView.message "boom", stringExceptionView.stack "boom"⟩ :=
  C7_host_fault_recorded_and_reraised [] "/boom" "rid1" "trace1" ⟨none, none⟩
    stringExceptionView "boom" true false rfl

/-- C8 (confirmed): the waterfall reconstruction returns exactly the
annotated spans of the trace, sorted by offset ascending with depth as the
secondary key, where each row's offset is the span's start time minus the
least start time among the trace's spans (hence never negative) and its
depth is the precomputed relation depth, or 0 with no relation row; three
spans starting at t0, t0+10ms, t0+5ms come back with offsets 0, 5, 10. -/
theorem C8_waterfall_offsets_sorted (spans : List SpanRow)
    (rels : List RelRow) (tid : String) :
    List.Sorted waterfallLe (getWaterfallData spans rels tid) ∧
    (getWaterfallData spans rels tid).Perm
      ((spans.filter fun s => s.traceId = tid).map fun s =>
        (⟨s.spanId, relDepth rels s.spanId, s.startMs -
          minStart ((spans.filter fun s2 => s2.traceId = tid).map
            (·.startMs))⟩ : WaterfallRow)) ∧
    (∀ w ∈ getWaterfallData spans rels tid, 0 ≤ w.offsetMs) ∧
    getWaterfallData waterfallExampleSpans [] "T" =
      [⟨"s1", 0, 0⟩, ⟨"s3", 0, 5⟩, ⟨"s2", 0, 10⟩] := by
  have hperm : (getWaterfallData spans rels tid).Perm
      ((spans.filter fun s => s.traceId = tid).map fun s =>
        (⟨s.spanId, relDepth rels s.spanId, s.startMs -
          minStart ((spans.filter fun s2 => s2.traceId = tid).map
            (·.startMs))⟩ : WaterfallRow)) :=
    List.perm_insertionSort _ _
  refine ⟨List.sorted_insertionSort _ _, hperm, ?_, by decide⟩
  intro w hw
  obtain ⟨s, hs, rfl⟩ := List.mem_map.mp (hperm.mem_iff.mp hw)
  have hmem : s.startMs ∈
      (spans.filter fun s2 => s2.traceId = tid).map (·.startMs) :=
    List.mem_map.mpr ⟨s, hs, rfl⟩
  have hmin := minStart_le hmem
  simp only
  omega

/-- C10 (confirmed): the query-capture listener's before hook returns the
absence marker exactly when the raw statement contains the case-sensitive
substring "radar_" or the stripped upper-cased statement starts with
CREATE, DROP or ALTER; for such statements the trace context is untouched
(no span opened) and the after hook writes no CapturedQuery row; a
statement mentioning radar_ anywhere is excluded, while one naming
RADAR_REQUESTS in upper case is not. -/
theorem C10_internal_and_ddl_statements_excluded (query : String)
    (rid : Option String) (tc tc2 : Option TraceCtxState) (nsid : String)
    (now now2 th : Int) (exc dbOk : Bool) :
    ((beforeQuery query rid tc nsid now).1 = none ↔
      (pyContains "radar_" query = true ∨
        pyStartsWith (pyUpper (pyStrip query)) "CREATE" = true ∨
        pyStartsWith (pyUpper (pyStrip query)) "DROP" = true ∨
        pyStartsWith (pyUpper (pyStrip query)) "ALTER" = true)) ∧
    ((beforeQuery query rid tc nsid now).1 = none →
      (beforeQuery query rid tc nsid now).2 = tc ∧
      (afterQuery (beforeQuery query rid tc nsid now).1 query exc tc2 now2 th
        dbOk).2 = none) ∧
    beforeQuerySkips "SELECT name FROM users WHERE tag = radar_tag" = true ∧
    beforeQuerySkips "SELECT * FROM RADAR_REQUESTS" = false ∧
    beforeQuerySkips "  create table users (id int)" = true := by
  have hchar : beforeQuerySkips query = true ↔
      (pyContains "radar_" query = true ∨
        pyStartsWith (pyUpper (pyStrip query)) "CREATE" = true ∨
        pyStartsWith (pyUpper (pyStrip query)) "DROP" = true ∨
        pyStartsWith (pyUpper (pyStrip query)) "ALTER" = true) := by
    simp [beforeQuerySkips]
  have hiff : (beforeQuery query rid tc nsid now).1 = none ↔
      beforeQuerySkips query = true := by
    by_cases hskip : beforeQuerySkips query
    · simp [beforeQuery, hskip]
    · cases tc <;> simp [beforeQuery, hskip]
  refine ⟨hiff.trans hchar, ?_, by decide, by decide, by decide⟩
  intro hnone
  have hskip := hiff.mp hnone
  constructor
  · simp [beforeQuery, hskip]
  · simp [beforeQuery, afterQuery, hskip]

end FastapiRadar
